import Mathlib

/-!
Verification of the Usage Accounting & Throttling subsystem of the
llm-gateway repository, together with the front-end auth utilities.

The back-end Usage Tracker (`billing/token_tracker.py`) and Rate Limiter
(`gateway/limiter.py`) modules are documented in `src/TOKEN_TRACKING.md`
and `src/RATE_LIMITING.md` but their implementation files are not present
in the repository snapshot; the operational definitions below are
modelled from the specification's operation contracts (spec §4.3, §4.4,
§8).  The front-end definitions (`maskApiKey`, `canPerformAction`, …)
are direct translations of `src/frontend/src/lib/auth.ts`.
-/

namespace LlmGateway

/-! ## Usage Tracker (spec §4.3)

Modelled from the spec: the Usage Tracker keeps one `UsageRecord` per
api_key, `{used_tokens ≥ 0}`, created lazily (an absent record reads as
0).  The store is modelled as an association list from api_key to the
`used_tokens` counter; `last_updated` plays no role in any claim and is
omitted.  The active-backend / fallback indirection is transparent to
the operation contracts ("never fails; backend errors fall through to
fallback transparently"), so a single store models the active backend. -/

/-- Modelled from the spec: the per-key usage counter store
(api_key ↦ used_tokens). -/
def UsageStore := List (String × Nat)

/-- Write-through update of the usage store: overwrite the first binding
of `k`, or append a fresh record (lazy creation). -/
def setUsage : UsageStore → String → Nat → UsageStore
  | [], k, v => [(k, v)]
  | (k', v') :: rest, k, v =>
    if k' = k then (k, v) :: rest else (k', v') :: setUsage rest k v

/-- Modelled from the spec: `get_usage(key) -> integer` reads
`UsageRecord.used_tokens`; an absent record reads as 0
(`billing/token_tracker.py` is not in the snapshot). -/
def get_usage (s : UsageStore) (k : String) : Nat :=
  match List.lookup k s with
  | some v => v
  | none => 0

/-- Modelled from the spec: `increment_usage(key, tokens) -> bool`;
tokens must be ≥ 0 (reject/no-op on negative input), otherwise an atomic
increment of the counter (`billing/token_tracker.py` is not in the
snapshot).  Returns the updated store and the success flag. -/
def increment_usage (s : UsageStore) (k : String) (tokens : Int) :
    UsageStore × Bool :=
  if tokens < 0 then (s, false)
  else (setUsage s k (get_usage s k + tokens.toNat), true)

/-- Modelled from the spec: `check_limit(key, max_tokens) -> bool` is
true iff `get_usage(key) < max_tokens`, strict comparison
(`billing/token_tracker.py` is not in the snapshot). -/
def check_limit (s : UsageStore) (k : String) (max_tokens : Nat) : Bool :=
  if get_usage s k < max_tokens then true else false

/-- Modelled from the spec: `reset_usage(key) -> bool` sets
`used_tokens` to 0 and returns success (`billing/token_tracker.py` is
not in the snapshot). -/
def reset_usage (s : UsageStore) (k : String) : UsageStore × Bool :=
  (setUsage s k 0, true)

/-- Repeated `reset_usage` calls (`n` of them) on the same key, threading
the store. -/
def resetN (s : UsageStore) (k : String) : Nat → UsageStore
  | 0 => s
  | n + 1 => (reset_usage (resetN s k n) k).1

/-- Modelled from the spec: `reset_monthly_usage() -> {reset_count,
error_count}` enumerates all known usage keys and resets each
independently; a failure on one key increments `error_count` and does
not abort the remaining resets (`billing/token_tracker.py` is not in
the snapshot).  Per-key backend failures are modelled by the oracle
`fails`. -/
def reset_monthly_usage (s : UsageStore) (fails : String → Bool) :
    UsageStore × Nat × Nat :=
  (s.map Prod.fst).foldl
    (fun acc k =>
      if fails k then (acc.1, acc.2.1, acc.2.2 + 1)
      else ((reset_usage acc.1 k).1, acc.2.1 + 1, acc.2.2))
    (s, 0, 0)

/-! ### Store lemmas -/

theorem lookup_setUsage_self (s : UsageStore) (k : String) (v : Nat) :
    List.lookup k (setUsage s k v) = some v := by
  induction s with
  | nil => simp [setUsage, List.lookup]
  | cons hd tl ih =>
    obtain ⟨k', v'⟩ := hd
    by_cases h : k' = k
    · simp [setUsage, h, List.lookup]
    · simp only [setUsage, if_neg h, List.lookup]
      have : (k == k') = false := by
        simp [beq_iff_eq]; exact fun e => h e.symm
      simp [this, ih]

theorem lookup_setUsage_ne (s : UsageStore) (k k' : String) (v : Nat)
    (h : k' ≠ k) :
    List.lookup k' (setUsage s k v) = List.lookup k' s := by
  induction s with
  | nil =>
    simp only [setUsage, List.lookup]
    have : (k' == k) = false := by simp [beq_iff_eq]; exact h
    simp [this]
  | cons hd tl ih =>
    obtain ⟨k₀, v₀⟩ := hd
    by_cases hk : k₀ = k
    · subst hk
      simp only [setUsage, if_pos rfl, List.lookup]
      have : (k' == k₀) = false := by simp [beq_iff_eq]; exact h
      simp [this]
    · simp only [setUsage, if_neg hk, List.lookup]
      by_cases he : k' = k₀
      · subst he; simp
      · have : (k' == k₀) = false := by simp [beq_iff_eq]; exact he
        simp [this, ih]

theorem get_setUsage_self (s : UsageStore) (k : String) (v : Nat) :
    get_usage (setUsage s k v) k = v := by
  simp [get_usage, lookup_setUsage_self]

theorem get_setUsage_ne (s : UsageStore) (k k' : String) (v : Nat)
    (h : k' ≠ k) :
    get_usage (setUsage s k v) k' = get_usage s k' := by
  simp [get_usage, lookup_setUsage_ne s k k' v h]

/-! ## Rate Limiter (spec §4.4)

Modelled from the spec: one `RateWindowCounter` `{count, window_expires_at}`
per api_key, stored under the `rate_limit:{api_key}` namespace with a TTL
equal to `window_seconds`; expiry is checked lazily on access (an expired
counter behaves as absent, spec §4.1).  `gateway/limiter.py` is not in the
snapshot. -/

/-- Modelled from the spec: `RateWindowCounter` — the per-key window
counter with its fixed expiry instant. -/
structure RateWindowCounter where
  count : Nat
  window_expires_at : Nat
  deriving Repr, DecidableEq

/-- The result shape of `check_rate_limit` / `get_rate_limit_info`:
`{current_count, limit, remaining}` plus the admission verdict
(`allowed = false` models the denial signal). -/
structure RateResult where
  current_count : Nat
  limit : Nat
  remaining : Nat
  allowed : Bool
  deriving Repr, DecidableEq

/-- Modelled from the spec: the rate-limit counter store
(api_key ↦ RateWindowCounter). -/
def RateStore := List (String × RateWindowCounter)

/-- Overwrite-or-create update of the rate-limit store. -/
def setCounter : RateStore → String → RateWindowCounter → RateStore
  | [], k, c => [(k, c)]
  | (k', c') :: rest, k, c =>
    if k' = k then (k, c) :: rest else (k', c') :: setCounter rest k c

/-- Lazy-expiry read of a window counter: an entry whose
`window_expires_at` has passed behaves as absent (spec §4.1). -/
def liveCounter (s : RateStore) (k : String) (now : Nat) :
    Option RateWindowCounter :=
  match List.lookup k s with
  | some c => if now < c.window_expires_at then some c else none
  | none => none

/-- Modelled from the spec: `check_rate_limit(key)` increments the
window counter atomically; if the counter did not exist (or had
expired), creates it with `window_expires_at = now + window_seconds`.
If the resulting count exceeds `limit` the call signals denial, and the
increment is not rolled back.  `remaining = max(0, limit -
current_count)` (realised by truncated Nat subtraction).
(`gateway/limiter.py` is not in the snapshot.) -/
def check_rate_limit (s : RateStore) (k : String) (now limit window : Nat) :
    RateStore × RateResult :=
  match liveCounter s k now with
  | some c =>
    let newCount := c.count + 1
    (setCounter s k ⟨newCount, c.window_expires_at⟩,
     ⟨newCount, limit, limit - newCount, decide (newCount ≤ limit)⟩)
  | none =>
    (setCounter s k ⟨1, now + window⟩,
     ⟨1, limit, limit - 1, decide (1 ≤ limit)⟩)

/-- A sequence of `check_rate_limit` calls at the given instants,
threading the store and collecting each call's result. -/
def callSeq (s : RateStore) (k : String) (limit window : Nat) :
    List Nat → RateStore × List RateResult
  | [] => (s, [])
  | t :: ts =>
    let (s', r) := check_rate_limit s k t limit window
    let (s'', rs) := callSeq s' k limit window ts
    (s'', r :: rs)

/-! ### Rate store lemmas -/

theorem lookup_setCounter_self (s : RateStore) (k : String)
    (c : RateWindowCounter) :
    List.lookup k (setCounter s k c) = some c := by
  induction s with
  | nil => simp [setCounter, List.lookup]
  | cons hd tl ih =>
    obtain ⟨k', c'⟩ := hd
    by_cases h : k' = k
    · simp [setCounter, h, List.lookup]
    · simp only [setCounter, if_neg h, List.lookup]
      have : (k == k') = false := by
        simp [beq_iff_eq]; exact fun e => h e.symm
      simp [this, ih]

theorem check_rate_limit_fresh (s : RateStore) (k : String)
    (now limit window : Nat) (h : liveCounter s k now = none) :
    check_rate_limit s k now limit window =
      (setCounter s k ⟨1, now + window⟩,
       ⟨1, limit, limit - 1, decide (1 ≤ limit)⟩) := by
  simp [check_rate_limit, h]

theorem check_rate_limit_live (s : RateStore) (k : String)
    (now limit window : Nat) (c : RateWindowCounter)
    (h : liveCounter s k now = some c) :
    check_rate_limit s k now limit window =
      (setCounter s k ⟨c.count + 1, c.window_expires_at⟩,
       ⟨c.count + 1, limit, limit - (c.count + 1),
        decide (c.count + 1 ≤ limit)⟩) := by
  simp [check_rate_limit, h]

theorem liveCounter_setCounter_self (s : RateStore) (k : String)
    (c : RateWindowCounter) (now : Nat) (h : now < c.window_expires_at) :
    liveCounter (setCounter s k c) k now = some c := by
  simp [liveCounter, lookup_setCounter_self, h]

/-- Running a call sequence against a live counter `⟨c, e⟩` when every
call instant is before the expiry `e`: each call bumps the count by one
and reports accordingly. -/
theorem callSeq_live (k : String) (limit window e : Nat) :
    ∀ (ts : List Nat) (s : RateStore) (c : Nat),
      List.lookup k s = some ⟨c, e⟩ →
      (∀ t ∈ ts, t < e) →
      (callSeq s k limit window ts).2 =
        (List.range ts.length).map
          (fun j => ⟨c + j + 1, limit, limit - (c + j + 1),
                     decide (c + j + 1 ≤ limit)⟩) ∧
      List.lookup k (callSeq s k limit window ts).1 =
        some ⟨c + ts.length, e⟩ := by
  intro ts
  induction ts with
  | nil => intro s c hl _; simpa [callSeq] using hl
  | cons t ts ih =>
    intro s c hl hts
    have ht : t < e := hts t (by simp)
    have hlive : liveCounter s k t = some ⟨c, e⟩ := by
      simp [liveCounter, hl, ht]
    have hstep := check_rate_limit_live s k t limit window ⟨c, e⟩ hlive
    have hl' : List.lookup k (setCounter s k ⟨c + 1, e⟩) = some ⟨c + 1, e⟩ :=
      lookup_setCounter_self _ _ _
    have hts' : ∀ u ∈ ts, u < e := fun u hu => hts u (by simp [hu])
    obtain ⟨ih1, ih2⟩ := ih (setCounter s k ⟨c + 1, e⟩) (c + 1) hl' hts'
    constructor
    · simp only [callSeq, hstep, ih1, List.length_cons, List.range_succ_eq_map,
        List.map_cons, List.map_map, List.cons.injEq]
      refine ⟨by simp, ?_⟩
      apply List.map_congr_left
      intro j _
      simp only [Function.comp_apply, RateResult.mk.injEq, decide_eq_decide]
      refine ⟨by omega, trivial, by omega, by omega⟩
    · simp only [callSeq, hstep, List.length_cons]
      have : c + 1 + ts.length = c + (ts.length + 1) := by omega
      rw [← this]; exact ih2

/-! ### Bulk-reset lemmas (spec §4.3, `reset_monthly_usage`) -/

/-- The fold step of `reset_monthly_usage`. -/
def resetStep (fails : String → Bool) (acc : UsageStore × Nat × Nat)
    (k : String) : UsageStore × Nat × Nat :=
  if fails k then (acc.1, acc.2.1, acc.2.2 + 1)
  else ((reset_usage acc.1 k).1, acc.2.1 + 1, acc.2.2)

theorem reset_monthly_usage_eq_foldl (s : UsageStore)
    (fails : String → Bool) :
    reset_monthly_usage s fails =
      (s.map Prod.fst).foldl (resetStep fails) (s, 0, 0) := by
  rfl

theorem resetFold_counts (fails : String → Bool) :
    ∀ (l : List String) (st : UsageStore) (rc ec : Nat),
      (l.foldl (resetStep fails) (st, rc, ec)).2.1 +
        (l.foldl (resetStep fails) (st, rc, ec)).2.2 = rc + ec + l.length := by
  intro l
  induction l with
  | nil => intro st rc ec; simp
  | cons k l ih =>
    intro st rc ec
    by_cases h : fails k = true
    · simp only [List.foldl_cons, resetStep, h, if_pos]
      rw [ih]; simp; omega
    · simp only [List.foldl_cons, resetStep, h, if_neg, Bool.false_eq_true,
        not_false_eq_true]
      rw [ih]; simp; omega

theorem resetFold_preserves_zero (fails : String → Bool) (k : String) :
    ∀ (l : List String) (st : UsageStore) (rc ec : Nat),
      get_usage st k = 0 →
      get_usage (l.foldl (resetStep fails) (st, rc, ec)).1 k = 0 := by
  intro l
  induction l with
  | nil => intro st rc ec h; simpa using h
  | cons k' l ih =>
    intro st rc ec h
    by_cases hf : fails k' = true
    · simp only [List.foldl_cons, resetStep, hf, if_pos]
      exact ih st rc (ec + 1) h
    · simp only [List.foldl_cons, resetStep, hf, Bool.false_eq_true,
        not_false_eq_true, if_neg]
      apply ih
      by_cases hk : k = k'
      · subst hk; simp [reset_usage, get_setUsage_self]
      · simpa [reset_usage, get_setUsage_ne st k' k 0 hk] using h

theorem resetFold_mem_zero (fails : String → Bool) (k : String) :
    ∀ (l : List String) (st : UsageStore) (rc ec : Nat),
      k ∈ l → fails k = false →
      get_usage (l.foldl (resetStep fails) (st, rc, ec)).1 k = 0 := by
  intro l
  induction l with
  | nil => intro st rc ec h; simp at h
  | cons k' l ih =>
    intro st rc ec hmem hfail
    by_cases hk : k = k'
    · subst hk
      simp only [List.foldl_cons, resetStep, hfail, Bool.false_eq_true,
        not_false_eq_true, if_neg]
      exact resetFold_preserves_zero fails k l _ _ _
        (by simp [reset_usage, get_setUsage_self])
    · have hmem' : k ∈ l := by
        rcases List.mem_cons.mp hmem with h | h
        · exact absurd h hk
        · exact h
      by_cases hf : fails k' = true
      · simp only [List.foldl_cons, resetStep, hf, if_pos]
        exact ih _ _ _ hmem' hfail
      · simp only [List.foldl_cons, resetStep, hf, Bool.false_eq_true,
          not_false_eq_true, if_neg]
        exact ih _ _ _ hmem' hfail

/-! ## Front-end auth utilities
(direct translation of `src/frontend/src/lib/auth.ts`) -/

/-- The `User` shape from `src/frontend/src/types/index.ts`; only the
fields consulted by `permissionUtils` are modelled. -/
structure User where
  role : String
  isActive : Bool
  deriving Repr, DecidableEq

/-- Translation of `permissionUtils.hasRole` from `auth.ts`: `user?.role === role`. -/
def hasRole (user : Option User) (role : String) : Bool :=
  match user with
  | some u => u.role == role
  | none => false

/-- Translation of `permissionUtils.isAdmin` from `auth.ts`. -/
def isAdmin (user : Option User) : Bool :=
  hasRole user ("admin")

/-- Translation of `permissionUtils.canPerformAction` from `auth.ts` lines 129-147:
fail-closed on a missing or inactive user; admins may do anything; the
switch's grouped cases are rendered as disjunctions. -/
def canPerformAction (user : Option User) (action : String) : Bool :=
  match user with
  | none => false
  | some u =>
    if !u.isActive then false
    else if isAdmin (some u) then true
    else if action == "create_api_key" || action == "view_usage_stats"
        || action == "update_profile" then true
    else if action == "manage_users" || action == "view_admin_panel" then
      isAdmin (some u)
    else false

/-- Translation of `apiKeyUtils.maskApiKey` from `auth.ts` lines 252-260: keys of
length ≤ 8 are returned unchanged; longer keys become
`substring(0,8) ++ "*".repeat(max(0, length-12)) ++ substring(length-4)`
(JS `Math.max(0, ·)` is realised by truncated Nat subtraction). -/
def maskApiKey (key : String) : String :=
  if key.length ≤ 8 then key
  else
    let start : String := ⟨key.data.take 8⟩
    let ending : String := ⟨key.data.drop (key.length - 4)⟩
    let middle : String := ⟨List.replicate (key.length - 12) '*'⟩
    start ++ middle ++ ending

theorem resetFold_error_eq (fails : String → Bool) :
    ∀ (l : List String) (st : UsageStore) (rc ec : Nat),
      (l.foldl (resetStep fails) (st, rc, ec)).2.2 =
        ec + (l.filter fails).length := by
  intro l
  induction l with
  | nil => intro st rc ec; simp
  | cons k l ih =>
    intro st rc ec
    by_cases h : fails k = true
    · simp only [List.foldl_cons, resetStep, h, if_pos, List.filter_cons]
      rw [ih]; simp [h]; omega
    · simp only [List.foldl_cons, resetStep, h, Bool.false_eq_true,
        not_false_eq_true, if_neg, List.filter_cons]
      rw [ih]

/-! ## Claims -/

/-- C1: for every api_key `k` and every `max_tokens` value `m`,
`check_limit(k, m)` returns true iff `get_usage(k) < m`; in particular
at `get_usage(k) = m` the key is already exhausted and `check_limit`
returns false. -/
theorem claim_C1 (s : UsageStore) (k : String) (m : Nat) :
    (check_limit s k m = true ↔ get_usage s k < m) ∧
    (get_usage s k = m → check_limit s k m = false) := by
  constructor
  · constructor
    · intro h
      by_contra hlt
      simp [check_limit, hlt] at h
    · intro h; simp [check_limit, h]
  · intro h
    simp [check_limit, h]

theorem claim_C1_witness :
    check_limit ([(("k"), 5)]) ("k") 5 = false :=
  (claim_C1 ([(("k"), 5)]) ("k") 5).2 (by decide)

/-- C2: `increment_usage(k, n)` followed by `get_usage(k)` yields the
pre-call value plus `n` for every non-negative `n`; a key with no prior
record has pre-call value 0. -/
theorem claim_C2 (s : UsageStore) (k : String) (n : Int) (h : 0 ≤ n) :
    get_usage (increment_usage s k n).1 k = get_usage s k + n.toNat ∧
    (List.lookup k s = none → get_usage s k = 0) := by
  constructor
  · have hn : ¬ n < 0 := by omega
    simp only [increment_usage, if_neg hn]
    exact get_setUsage_self s k _
  · intro h0; simp [get_usage, h0]

theorem claim_C2_witness :
    get_usage (increment_usage [] ("k") 3).1 ("k") =
      get_usage [] ("k") + (3 : Int).toNat ∧
    (List.lookup ("k") ([] : UsageStore) = none → get_usage [] ("k") = 0) :=
  claim_C2 [] ("k") 3 (by decide)

/-- C3: with limit 30 and window 60, 31 sequential `check_rate_limit`
calls on a fresh key whose instants all fall inside the first window
produce exactly the results `⟨j+1, 30, 30-(j+1), decide (j+1 ≤ 30)⟩`:
the first 30 admit with `remaining` strictly decreasing from 29 to 0,
the 31st is denied with `remaining = 0`, and every result satisfies
`remaining = max(0, limit - current_count)`. -/
theorem claim_C3 (s : RateStore) (k : String) (t0 : Nat) (ts : List Nat)
    (hfresh : List.lookup k s = none)
    (hlen : ts.length = 30)
    (hts : ∀ t ∈ ts, t < t0 + 60) :
    (callSeq s k 30 60 (t0 :: ts)).2 =
      (List.range 31).map
        (fun j => ⟨j + 1, 30, 30 - (j + 1), decide (j + 1 ≤ 30)⟩) ∧
    (∀ r ∈ (callSeq s k 30 60 (t0 :: ts)).2,
        r.remaining = Int.toNat ((r.limit : Int) - r.current_count)) ∧
    (∀ j, j < 30 →
        ((callSeq s k 30 60 (t0 :: ts)).2.getD j ⟨0, 0, 0, false⟩).allowed
          = true) ∧
    ((callSeq s k 30 60 (t0 :: ts)).2.getD 30 ⟨0, 0, 0, false⟩).allowed
        = false ∧
    ((callSeq s k 30 60 (t0 :: ts)).2.getD 30 ⟨0, 0, 0, false⟩).remaining
        = 0 ∧
    (∀ j, j < 29 →
        ((callSeq s k 30 60 (t0 :: ts)).2.getD (j + 1) ⟨0, 0, 0, false⟩).remaining
          < ((callSeq s k 30 60 (t0 :: ts)).2.getD j ⟨0, 0, 0, false⟩).remaining) := by
  have hlive0 : liveCounter s k t0 = none := by simp [liveCounter, hfresh]
  have hstep := check_rate_limit_fresh s k t0 30 60 hlive0
  have hl1 : List.lookup k (setCounter s k ⟨1, t0 + 60⟩) = some ⟨1, t0 + 60⟩ :=
    lookup_setCounter_self _ _ _
  obtain ⟨htail, -⟩ :=
    callSeq_live k 30 60 (t0 + 60) ts (setCounter s k ⟨1, t0 + 60⟩) 1 hl1 hts
  have hres : (callSeq s k 30 60 (t0 :: ts)).2 =
      (List.range 31).map
        (fun j => ⟨j + 1, 30, 30 - (j + 1), decide (j + 1 ≤ 30)⟩) := by
    simp only [callSeq, hstep, htail, hlen]
    decide
  refine ⟨hres, ?_⟩
  rw [hres]
  decide

theorem claim_C3_witness :
    ((callSeq [] ("k") 30 60 (0 :: List.replicate 30 5)).2.getD 30
        ⟨0, 0, 0, false⟩).allowed = false :=
  (claim_C3 [] ("k") 0 (List.replicate 30 5) (by decide) (by decide)
    (by decide)).2.2.2.1

/-- C4: fixed-window behaviour — once a key's window counter has
expired, the next `check_rate_limit` call admits with
`current_count = 1` and installs a fresh counter expiring a full window
later, regardless of the count accumulated in the previous window. -/
theorem claim_C4 (s : RateStore) (k : String) (c e now limit window : Nat)
    (h : List.lookup k s = some ⟨c, e⟩) (hexp : e ≤ now) (hL : 0 < limit) :
    (check_rate_limit s k now limit window).2.current_count = 1 ∧
    (check_rate_limit s k now limit window).2.allowed = true ∧
    List.lookup k (check_rate_limit s k now limit window).1 =
      some ⟨1, now + window⟩ := by
  have hlive : liveCounter s k now = none := by
    simp only [liveCounter, h]
    rw [if_neg (by omega)]
  rw [check_rate_limit_fresh s k now limit window hlive]
  refine ⟨rfl, ?_, lookup_setCounter_self _ _ _⟩
  simp only [decide_eq_true_eq]
  omega

theorem claim_C4_witness :
    (check_rate_limit ([(("k"), ⟨5, 10⟩)]) ("k") 10 30 60).2.current_count
        = 1 ∧
    (check_rate_limit ([(("k"), ⟨5, 10⟩)]) ("k") 10 30 60).2.allowed = true ∧
    List.lookup ("k") (check_rate_limit ([(("k"), ⟨5, 10⟩)]) ("k") 10 30 60).1
        = some ⟨1, 10 + 60⟩ :=
  claim_C4 ([(("k"), ⟨5, 10⟩)]) ("k") 5 10 10 30 60 (by decide) (by decide)
    (by decide)

/-- C5: `reset_usage(k)` followed by `get_usage(k)` yields 0, and the
reset is idempotent — after any positive number of repeated resets the
usage reads 0 (and each reset reports success). -/
theorem claim_C5 (s : UsageStore) (k : String) (n : Nat) :
    get_usage (resetN s k (n + 1)) k = 0 ∧ (reset_usage s k).2 = true := by
  constructor
  · simp [resetN, reset_usage, get_setUsage_self]
  · rfl

/-- C6: `reset_monthly_usage` resets every known key independently:
`reset_count + error_count` equals the total number of known keys,
`error_count` counts exactly the failing keys, and every non-failing
key ends with usage 0 even when other keys failed (no abort). -/
theorem claim_C6 (s : UsageStore) (fails : String → Bool) :
    (reset_monthly_usage s fails).2.1 + (reset_monthly_usage s fails).2.2
        = s.length ∧
    (reset_monthly_usage s fails).2.2 =
        ((s.map Prod.fst).filter fails).length ∧
    (∀ k ∈ s.map Prod.fst, fails k = false →
        get_usage (reset_monthly_usage s fails).1 k = 0) := by
  refine ⟨?_, ?_, ?_⟩
  · rw [reset_monthly_usage_eq_foldl]
    have h := resetFold_counts fails (s.map Prod.fst) s 0 0
    simpa using h
  · rw [reset_monthly_usage_eq_foldl]
    have h := resetFold_error_eq fails (s.map Prod.fst) s 0 0
    simpa using h
  · intro k hk hf
    rw [reset_monthly_usage_eq_foldl]
    exact resetFold_mem_zero fails k (s.map Prod.fst) s 0 0 hk hf

theorem claim_C6_witness :
    get_usage
      (reset_monthly_usage ([(("a"), 5), (("b"), 7)])
        (fun k => k == "b")).1 ("a") = 0 :=
  (claim_C6 ([(("a"), 5), (("b"), 7)]) (fun k => k == "b")).2.2 ("a")
    (by decide) (by decide)

/-- C7: a denied `check_rate_limit` call does not roll back its
increment — the stored count after the denied call is one greater than
before, and any subsequent call within the same window observes a
strictly larger `current_count`. -/
theorem claim_C7 (s : RateStore) (k : String) (c e now limit window : Nat)
    (h : List.lookup k s = some ⟨c, e⟩) (hnow : now < e)
    (hden : limit < c + 1) :
    (check_rate_limit s k now limit window).2.allowed = false ∧
    (check_rate_limit s k now limit window).2.current_count = c + 1 ∧
    List.lookup k (check_rate_limit s k now limit window).1 =
      some ⟨c + 1, e⟩ ∧
    (∀ now', now' < e →
      (check_rate_limit (check_rate_limit s k now limit window).1 k now'
          limit window).2.current_count = c + 2) := by
  have hlive : liveCounter s k now = some ⟨c, e⟩ := by
    simp [liveCounter, h, hnow]
  rw [check_rate_limit_live s k now limit window ⟨c, e⟩ hlive]
  refine ⟨?_, rfl, lookup_setCounter_self _ _ _, ?_⟩
  · simp only [decide_eq_false_iff_not]
    omega
  · intro now' hnow'
    have hlive' : liveCounter (setCounter s k ⟨c + 1, e⟩) k now'
        = some ⟨c + 1, e⟩ :=
      liveCounter_setCounter_self s k ⟨c + 1, e⟩ now' hnow'
    rw [check_rate_limit_live _ _ _ _ _ _ hlive']

theorem claim_C7_witness :
    (check_rate_limit
      (check_rate_limit ([(("k"), ⟨30, 100⟩)]) ("k") 50 30 60).1 ("k") 60 30
        60).2.current_count = 32 :=
  (claim_C7 ([(("k"), ⟨30, 100⟩)]) ("k") 30 100 50 30 60 (by decide)
    (by decide) (by decide)).2.2.2 60 (by decide)

/-- C8: `used_tokens` is monotone under `increment_usage` for every key
and every (possibly negative) tokens argument; a negative argument is
rejected as a no-op returning false; only an explicit reset lowers the
counter, to zero. -/
theorem claim_C8 (s : UsageStore) (k k' : String) (t : Int) :
    get_usage s k' ≤ get_usage (increment_usage s k t).1 k' ∧
    (t < 0 → (increment_usage s k t).1 = s ∧
      (increment_usage s k t).2 = false) ∧
    get_usage (reset_usage s k).1 k = 0 := by
  refine ⟨?_, ?_, by simp [reset_usage, get_setUsage_self]⟩
  · by_cases ht : t < 0
    · simp [increment_usage, ht]
    · simp only [increment_usage, if_neg ht]
      by_cases hk : k' = k
      · subst hk
        rw [get_setUsage_self]
        omega
      · rw [get_setUsage_ne s k k' _ hk]
  · intro ht
    simp [increment_usage, ht]

theorem claim_C8_witness :
    (increment_usage ([(("k"), 5)]) ("k") (-1)).1 = ([(("k"), 5)]) ∧
    (increment_usage ([(("k"), 5)]) ("k") (-1)).2 = false :=
  (claim_C8 ([(("k"), 5)]) ("k") ("k") (-1)).2.1 (by decide)

/-- C9: `maskApiKey` returns keys of length at most 8 unchanged; for a
longer key it returns the first 8 characters, then
`max(0, length - 12)` asterisks, then the last 4 characters; for
lengths 9 to 12 the prefix and suffix overlap, so every character of
the key still appears in the masked output. -/
theorem claim_C9 (key : String) :
    (key.length ≤ 8 → maskApiKey key = key) ∧
    (8 < key.length →
      (maskApiKey key).data =
        key.data.take 8 ++
          List.replicate (Int.toNat ((key.length : Int) - 12)) '*' ++
          key.data.drop (key.length - 4)) ∧
    (8 < key.length → key.length ≤ 12 →
      ∀ c ∈ key.data, c ∈ (maskApiKey key).data) := by
  refine ⟨?_, ?_, ?_⟩
  · intro h; simp [maskApiKey, h]
  · intro h
    have h12 : Int.toNat ((key.length : Int) - 12) = key.length - 12 := by
      omega
    rw [h12]
    simp only [maskApiKey, if_neg (not_le.mpr h)]
    rfl
  · intro h8 h12 c hc
    have hmask : (maskApiKey key).data =
        key.data.take 8 ++ List.replicate (key.length - 12) '*' ++
          key.data.drop (key.length - 4) := by
      simp only [maskApiKey, if_neg (not_le.mpr h8)]
      rfl
    rw [hmask]
    have hsplit : key.data = key.data.take 8 ++ key.data.drop 8 :=
      (List.take_append_drop 8 key.data).symm
    rw [hsplit] at hc
    rcases List.mem_append.mp hc with h | h
    · exact List.mem_append.mpr (Or.inl (List.mem_append.mpr (Or.inl h)))
    · refine List.mem_append.mpr (Or.inr ?_)
      have hlen : key.length = key.data.length := rfl
      have hdd : (key.data.drop (key.length - 4)).drop
            (8 - (key.length - 4)) = key.data.drop 8 := by
        rw [List.drop_drop]
        congr 1
        omega
      rw [← hdd] at h
      exact List.mem_of_mem_drop h

theorem claim_C9_witness :
    (maskApiKey ("sk-test-key-1")).data =
      ("sk-test-key-1").data.take 8 ++
        List.replicate (Int.toNat ((("sk-test-key-1").length : Int) - 12)) '*'
        ++ ("sk-test-key-1").data.drop (("sk-test-key-1").length - 4) :=
  (claim_C9 ("sk-test-key-1")).2.1 (by decide)

/-- C10: `canPerformAction` is fail-closed — false for a missing or
inactive user for every action; an active admin may perform every
action; an active non-admin may perform exactly `create_api_key`,
`view_usage_stats` and `update_profile`. -/
theorem claim_C10 (u : User) (action : String) :
    canPerformAction none action = false ∧
    (u.isActive = false → canPerformAction (some u) action = false) ∧
    (u.isActive = true → u.role = "admin" →
      canPerformAction (some u) action = true) ∧
    (u.isActive = true → u.role ≠ "admin" →
      (canPerformAction (some u) action = true ↔
        action = "create_api_key" ∨ action = "view_usage_stats" ∨
          action = "update_profile")) := by
  refine ⟨rfl, ?_, ?_, ?_⟩
  · intro h; simp [canPerformAction, h]
  · intro ha hr
    simp [canPerformAction, isAdmin, hasRole, ha, hr]
  · intro ha hr
    have hradm : (u.role == "admin") = false := by
      simp only [beq_eq_false_iff_ne, ne_eq]
      exact hr
    simp only [canPerformAction, isAdmin, hasRole, ha, hradm,
      Bool.not_true, Bool.false_eq_true, if_false, if_neg, Bool.or_eq_true,
      beq_iff_eq]
    constructor
    · intro hb
      by_cases h1 : action = "create_api_key"
      · exact Or.inl h1
      · by_cases h2 : action = "view_usage_stats"
        · exact Or.inr (Or.inl h2)
        · by_cases h3 : action = "update_profile"
          · exact Or.inr (Or.inr h3)
          · exfalso
            simp [h1, h2, h3] at hb
    · intro hb
      rcases hb with h1 | h2 | h3
      · simp [h1]
      · simp [h2]
      · simp [h3]

theorem claim_C10_witness :
    canPerformAction (some ⟨("user"), true⟩) ("create_api_key") = true ↔
      ("create_api_key") = "create_api_key" ∨
        ("create_api_key") = "view_usage_stats" ∨
        ("create_api_key") = "update_profile" :=
  (claim_C10 ⟨("user"), true⟩ ("create_api_key")).2.2.2 rfl (by decide)

end LlmGateway
